import Mathlib

/-!
# bunnydns-certmanager-webhook: credential resolution, Present and CleanUp

A shallow embedding of `main.go`.  The solver's three stateful collaborators are
explicit:

* the cluster secret store (`Clientset.secretsGet`),
* the HTTP transport (`Env.httpDo`, standing for `http.DefaultClient.Do`),
* the package variable `dnsRecordId`, drawn once at process start.

Every call of `getConfig`, `Present` and `CleanUp` yields a `Run`: the list of
external calls it made, in order, and how it ended (a returned `nil`, a returned
error, or a nil-pointer panic).

Go `string` and `[]byte` values are both represented by `String`; the
conversion `string(data)` is the identity.  Go `error` values are represented by
the text of their `Error()` method, which is what `%v` prints.  Go `int` is 64
bits wide (the constant `99999999999` on line 95 does not fit a 32-bit `int`).
-/

namespace BunnyWebhook

/-! ## Data model -/

/-- A Go `error`, represented by its message. -/
abbrev GoError := String

/-- The type `customDNSProviderConfig` (lines 36-41). -/
structure customDNSProviderConfig where
  SecretRef : String
  SecretNamespace : String
deriving DecidableEq, Repr

/-- The type `bunnyDNSApiConfig` (lines 42-45). -/
structure bunnyDNSApiConfig where
  apiKey : String
  zoneId : Int
deriving DecidableEq, Repr

/-- The type `extapi.JSON`: a raw JSON document. -/
structure JSON where
  Raw : String
deriving DecidableEq, Repr

/-- The fields of `v1alpha1.ChallengeRequest` that `main.go` reads. -/
structure ChallengeRequest where
  DNSName : String
  Key : String
  ResourceNamespace : String
  Config : Option JSON
deriving DecidableEq, Repr

/-- A cluster secret: `Data` is the Go map `map[string][]byte`. -/
structure Secret where
  Data : String → Option String

/-- The part of `kubernetes.Clientset` the solver uses:
`CoreV1().Secrets(ns).Get(ctx, name, opts)`. -/
structure Clientset where
  secretsGet : String → String → Except GoError Secret

/-- The type `bunnyDNSProviderSolver` (lines 32-34); `client` is a pointer that
is nil until `Initialize` has stored a client. -/
structure bunnyDNSProviderSolver where
  client : Option Clientset

/-- An `http.Request` as built by `http.NewRequest` and `Header.Add`. -/
structure HttpRequest where
  Method : String
  URL : String
  Header : List (String × String)
  Body : Option String
deriving DecidableEq, Repr

/-- The field of `http.Response` that `main.go` reads. -/
structure HttpResponse where
  StatusCode : Int
deriving DecidableEq, Repr

/-- The surroundings of one process: the library routines that are taken as
given, the HTTP transport, and the package variable `dnsRecordId`. -/
structure Env where
  /-- The call `json.Unmarshal(raw, &cfg)`: the updated `cfg` and the error. -/
  jsonUnmarshal : String → customDNSProviderConfig → customDNSProviderConfig × Option GoError
  /-- The function `strconv.Quote`, which is also the `%q` verb on a string. -/
  Quote : String → String
  /-- The JSON string literal `encoding/json` writes for a Go string. -/
  jsonString : String → String
  /-- The call `http.DefaultClient.Do(req)`: the response pointer and the error. -/
  httpDo : HttpRequest → Option HttpResponse × Option GoError
  /-- The package variable `dnsRecordId = rand.Intn(99999999999)` (line 95). -/
  dnsRecordId : Fin 99999999999

/-- An external call made by the solver. -/
inductive Event where
  | secretGet (ns name : String)
  | httpDo (req : HttpRequest)
deriving DecidableEq, Repr

/-- How a Go call ends: it returns a value with a nil error, it returns a
non-nil error, or it panics on a nil pointer. -/
inductive Result (α : Type) where
  | ok (a : α)
  | error (err : GoError)
  | crash
deriving DecidableEq, Repr

/-- The external calls made, in order, and the way the call ended. -/
structure Run (α : Type) where
  trace : List Event
  result : Result α
deriving DecidableEq, Repr

/-! ## Library routines modelled in full -/

/-- The function `strconv.Itoa`: the decimal rendering, with a leading `-` for a
negative number. -/
def Itoa (n : Int) : String :=
  match n with
  | Int.ofNat m => Nat.repr m
  | Int.negSucc m => "-" ++ Nat.repr (m + 1)

/-- The two errors of `strconv`: `ErrSyntax` and `ErrRange`. -/
inductive NumErr where
  | ErrSyntax
  | ErrRange
deriving DecidableEq, Repr

/-- The text of `ErrSyntax` and of `ErrRange`. -/
def NumErr.Error : NumErr → String
  | .ErrSyntax => "invalid syntax"
  | .ErrRange => "value out of range"

/-- The type `strconv.NumError`. -/
structure NumError where
  Func : String
  Num : String
  Err : NumErr
deriving DecidableEq, Repr

/-- The method `(*NumError).Error`. -/
def NumError.Error (env : Env) (e : NumError) : GoError :=
  "strconv." ++ e.Func ++ ": parsing " ++ env.Quote e.Num ++ ": " ++ e.Err.Error

/-- The digit loop of `strconv.ParseUint` in base 10 for 64 bits: a character
that is not a decimal digit is a syntax error, and an accumulator that leaves
the `uint64` range is a range error, whichever comes first. -/
def parseUintLoop : List Char → Nat → Except NumErr Nat
  | [], n => .ok n
  | c :: cs, n =>
    if c.isDigit then
      if n ≥ (2 ^ 64 - 1) / 10 + 1 then .error .ErrRange
      else if n * 10 + (c.toNat - 48) > 2 ^ 64 - 1 then .error .ErrRange
      else parseUintLoop cs (n * 10 + (c.toNat - 48))
    else .error .ErrSyntax

/-- The function `strconv.Atoi` for a 64-bit `int`: an optional sign, then one
or more decimal digits, with a value between `-2^63` and `2^63 - 1`. -/
def Atoi (s : String) : Except NumError Int :=
  match s.data with
  | [] => .error ⟨"Atoi", s, .ErrSyntax⟩
  | c :: rest =>
    let digits := if c = '+' ∨ c = '-' then rest else c :: rest
    if digits = [] then .error ⟨"Atoi", s, .ErrSyntax⟩
    else
      match parseUintLoop digits 0 with
      | .error k => .error ⟨"Atoi", s, k⟩
      | .ok un =>
        if c ≠ '-' ∧ un ≥ 2 ^ 63 then .error ⟨"Atoi", s, .ErrRange⟩
        else if c = '-' ∧ un > 2 ^ 63 then .error ⟨"Atoi", s, .ErrRange⟩
        else .ok (if c = '-' then -(un : Int) else (un : Int))

/-- The predicate `validHeaderFieldByte` of `net/textproto`: the token
characters of RFC 7230. -/
def validHeaderFieldByte (c : Char) : Bool :=
  c.isAlphanum ||
    [33, 35, 36, 37, 38, 39, 42, 43, 45, 46, 94, 95, 96, 124, 126].contains c.toNat

/-- The rewriting loop of `canonicalMIMEHeaderKey`: a letter that starts the key
or follows a hyphen is made upper case, every other letter lower case. -/
def canonLoop : Bool → List Char → List Char
  | _, [] => []
  | upper, c :: cs =>
    (if upper then c.toUpper else c.toLower) :: canonLoop (c = '-') cs

/-- The function `textproto.CanonicalMIMEHeaderKey`: a key with a character that
is not a token character is left as it is. -/
def CanonicalMIMEHeaderKey (s : String) : String :=
  if s.data.all validHeaderFieldByte then ⟨canonLoop true s.data⟩ else s

/-- The method `http.Header.Add`: the value is appended under the canonical
key. -/
def HttpRequest.headerAdd (req : HttpRequest) (key value : String) : HttpRequest :=
  { req with Header := req.Header ++ [(CanonicalMIMEHeaderKey key, value)] }

/-- The method `http.Header.Get`: the first value stored under the canonical
key, or the empty string. -/
def HttpRequest.headerGet (req : HttpRequest) (key : String) : String :=
  ((req.Header.lookup (CanonicalMIMEHeaderKey key)).getD "")

/-- The function `http.NewRequest` for a method and URL it accepts. -/
def NewRequest (method url : String) (body : Option String) : HttpRequest :=
  { Method := method, URL := url, Header := [], Body := body }

/-- A JSON number or string. -/
inductive JScalar where
  | number (n : Int)
  | string (s : String)
deriving DecidableEq, Repr

/-- A JSON object whose members are numbers and strings, in order. -/
structure JObject where
  members : List (String × JScalar)
deriving DecidableEq, Repr

/-- The names of the members of a JSON object, in order. -/
def JObject.names (o : JObject) : List String :=
  o.members.map Prod.fst

/-- The value of the first member with the given name. -/
def JObject.get (o : JObject) (name : String) : Option JScalar :=
  o.members.lookup name

/-- The text `encoding/json` writes for a number or a string. -/
def JScalar.text (env : Env) : JScalar → String
  | .number n => Itoa n
  | .string s => env.jsonString s

/-- The text `encoding/json` writes for an object: the members in order, each
as its quoted name, a colon and its value, separated by commas. -/
def JObject.text (env : Env) (o : JObject) : String :=
  "\x7b" ++ ",".intercalate (o.members.map fun m => "\"" ++ m.1 ++ "\":" ++ m.2.text env) ++ "\x7d"

/-! ## The program -/

/-- The type `NewDnsRecordRequest` (lines 88-93). -/
structure NewDnsRecordRequest where
  Id : Int
  «Type» : Int
  Value : String
  Name : String
deriving DecidableEq, Repr

/-- The JSON object `json.Marshal` builds for a `NewDnsRecordRequest`: the
struct has no field tags, so each exported field becomes a member under its Go
field name, in declaration order. -/
def NewDnsRecordRequest.toJSON (r : NewDnsRecordRequest) : JObject :=
  ⟨[("Id", .number r.Id), ("Type", .number r.«Type»),
    ("Value", .string r.Value), ("Name", .string r.Name)]⟩

/-- The call `json.Marshal(r)` for a `NewDnsRecordRequest`. -/
def Marshal (env : Env) (r : NewDnsRecordRequest) : String :=
  r.toJSON.text env

/-- The function `stringFromSecretData` (lines 160-166). -/
def stringFromSecretData (env : Env) (secretData : String → Option String) (key : String) :
    Except GoError String :=
  match secretData key with
  | none => .error ("key " ++ env.Quote key ++ " not found in secret data")
  | some data => .ok data

/-- The function `loadConfig` (lines 168-179): the configuration and the
error. -/
def loadConfig (env : Env) (cfgJSON : Option JSON) : customDNSProviderConfig × Option GoError :=
  let cfg : customDNSProviderConfig := { SecretRef := "", SecretNamespace := "" }
  match cfgJSON with
  | none => (cfg, none)
  | some j =>
    match env.jsonUnmarshal j.Raw cfg with
    | (cfg, some err) => (cfg, some ("error decoding solver config: " ++ err))
    | (cfg, none) => (cfg, none)

/-- The namespace chosen on lines 56-60. -/
def secretNamespaceOf (cfg : customDNSProviderConfig) (ch : ChallengeRequest) : String :=
  if cfg.SecretNamespace ≠ "" then cfg.SecretNamespace else ch.ResourceNamespace

/-- The method `getConfig` (lines 47-82). -/
def getConfig (env : Env) (c : bunnyDNSProviderSolver) (ch : ChallengeRequest) :
    Run bunnyDNSApiConfig :=
  match loadConfig env ch.Config with
  | (_, some err) => ⟨[], .error err⟩
  | (cfg, none) =>
    let secretNs := secretNamespaceOf cfg ch
    match c.client with
    | none => ⟨[], .crash⟩
    | some client =>
      let tr := [Event.secretGet secretNs cfg.SecretRef]
      match client.secretsGet secretNs cfg.SecretRef with
      | .error err =>
        ⟨tr, .error ("unable to get secret '" ++ secretNs ++ "/" ++ cfg.SecretRef ++ "': " ++ err)⟩
      | .ok sec =>
        match stringFromSecretData env sec.Data "api-key" with
        | .error err =>
          ⟨tr, .error ("unable to get 'api-key' from secret '" ++ secretNs ++ "/" ++
            cfg.SecretRef ++ "': " ++ err)⟩
        | .ok apiKey =>
          match stringFromSecretData env sec.Data "zone-id" with
          | .error err =>
            ⟨tr, .error ("unable to get 'zone-id' from secret '" ++ secretNs ++ "/" ++
              cfg.SecretRef ++ "': " ++ err)⟩
          | .ok zoneIdStr =>
            match Atoi zoneIdStr with
            | .error err =>
              ⟨tr, .error ("unable to get 'zone-id' from secret '" ++ secretNs ++ "/" ++
                cfg.SecretRef ++ "': " ++ err.Error env)⟩
            | .ok zoneId => ⟨tr, .ok { apiKey := apiKey, zoneId := zoneId }⟩

/-- The method `Name` (lines 84-86). -/
def Name : String := "bunny"

/-- The request `Present` builds on lines 103-119. -/
def presentRequest (env : Env) (cfg : bunnyDNSApiConfig) (ch : ChallengeRequest) : HttpRequest :=
  let url := "https://api.bunny.net/dnszone/" ++ Itoa cfg.zoneId ++ "/records"
  let data := Marshal env
    { Id := (env.dnsRecordId.val : Int), «Type» := 3, Value := ch.Key, Name := ch.DNSName }
  let req := NewRequest "PUT" url (some data)
  let req := req.headerAdd "accept" "application/json"
  let req := req.headerAdd "content-type" "application/json"
  req.headerAdd "AccessKey" cfg.apiKey

/-- The method `Present` (lines 97-130).  The deferred `res.Body.Close()` reads
through `res` when the `defer` statement runs, so a nil `res` panics there. -/
def Present (env : Env) (c : bunnyDNSProviderSolver) (ch : ChallengeRequest) : Run Unit :=
  match getConfig env c ch with
  | ⟨tr, .error err⟩ => ⟨tr, .error err⟩
  | ⟨tr, .crash⟩ => ⟨tr, .crash⟩
  | ⟨tr, .ok cfg⟩ =>
    let req := presentRequest env cfg ch
    match env.httpDo req with
    | (none, _) => ⟨tr ++ [.httpDo req], .crash⟩
    | (some res, _) =>
      if res.StatusCode ≠ 200 then ⟨tr ++ [.httpDo req], .ok ()⟩
      else ⟨tr ++ [.httpDo req], .ok ()⟩

/-- The request `CleanUp` builds on lines 138-143. -/
def cleanUpRequest (env : Env) (cfg : bunnyDNSApiConfig) : HttpRequest :=
  let url := "https://api.bunny.net/dnszone/" ++ Itoa cfg.zoneId ++ "/records/" ++
    Itoa (env.dnsRecordId.val : Int)
  let req := NewRequest "DELETE" url none
  let req := req.headerAdd "accept" "application/json"
  req.headerAdd "AccessKey" cfg.apiKey

/-- The method `CleanUp` (lines 132-149). -/
def CleanUp (env : Env) (c : bunnyDNSProviderSolver) (ch : ChallengeRequest) : Run Unit :=
  match getConfig env c ch with
  | ⟨tr, .error err⟩ => ⟨tr, .error err⟩
  | ⟨tr, .crash⟩ => ⟨tr, .crash⟩
  | ⟨tr, .ok cfg⟩ =>
    let req := cleanUpRequest env cfg
    match env.httpDo req with
    | (none, _) => ⟨tr ++ [.httpDo req], .crash⟩
    | (some _, _) => ⟨tr ++ [.httpDo req], .ok ()⟩

/-- The method `Initialize` (lines 151-158), given `kubernetes.NewForConfig`
applied to the host's configuration: the solver afterwards and the error. -/
def Initialize (c : bunnyDNSProviderSolver) (newForConfig : Except GoError Clientset) :
    bunnyDNSProviderSolver × Option GoError :=
  match newForConfig with
  | .error err => (c, some err)
  | .ok cl => ({ c with client := some cl }, none)

/-- The number that decimal digits stand for, read after the digits of `n`. -/
def digitsFrom : Nat → List Char → Nat
  | n, [] => n
  | n, c :: cs => digitsFrom (n * 10 + (c.toNat - 48)) cs

/-- The text `s` is the decimal integer `n` of 64 bits: an optional sign, then
one or more decimal digits, standing for a number from `-2^63` to `2^63 - 1`. -/
def IsInt64Text (s : String) (n : Int) : Prop :=
  ∃ sign digits, s.data = sign ++ digits ∧ (sign = [] ∨ sign = ['+'] ∨ sign = ['-']) ∧
    digits ≠ [] ∧ (∀ c ∈ digits, c.isDigit = true) ∧
    n = (if sign = ['-'] then -(digitsFrom 0 digits : Int) else (digitsFrom 0 digits : Int)) ∧
    -2 ^ 63 ≤ n ∧ n < 2 ^ 63

/-! ## Observations on a run -/

/-- The HTTP request of an event, if it is one. -/
def Event.toRequest : Event → Option HttpRequest
  | .httpDo req => some req
  | .secretGet _ _ => none

/-- The secret lookup of an event, if it is one: namespace and name. -/
def Event.toLookup : Event → Option (String × String)
  | .secretGet ns name => some (ns, name)
  | .httpDo _ => none

/-- The outbound HTTP requests of a run, in order. -/
def Run.requests {α : Type} (r : Run α) : List HttpRequest :=
  r.trace.filterMap Event.toRequest

/-- The secret lookups of a run, in order. -/
def Run.lookups {α : Type} (r : Run α) : List (String × String) :=
  r.trace.filterMap Event.toLookup

/-- The result with a function applied to the returned value. -/
def Result.map {α β : Type} (f : α → β) : Result α → Result β
  | .ok a => .ok (f a)
  | .error err => .error err
  | .crash => .crash

/-- The request without its `AccessKey` header entries. -/
def HttpRequest.withoutAccessKey (req : HttpRequest) : HttpRequest :=
  { req with Header := req.Header.filter fun kv => kv.1 != CanonicalMIMEHeaderKey "AccessKey" }

/-- Two answers of the secret store that differ at most in the value stored
under `api-key`: the same error, or two secrets that have the same entries under
every other name and that both have, or both lack, an `api-key` entry. -/
def SameUpToApiKey : Except GoError Secret → Except GoError Secret → Prop
  | .error e1, .error e2 => e1 = e2
  | .ok s1, .ok s2 =>
    (∀ k, k ≠ "api-key" → s1.Data k = s2.Data k) ∧
      (s1.Data "api-key").isSome = (s2.Data "api-key").isSome
  | _, _ => False

/-! ## A concrete setting for evaluation -/

/-- A decoder that knows two documents: one naming only the secret, one naming
the secret and a namespace.  Every other document is rejected. -/
def exampleUnmarshal (raw : String) (cfg : customDNSProviderConfig) :
    customDNSProviderConfig × Option GoError :=
  if raw = "\x7b\"secretRef\":\"bunny-credentials\"\x7d" then
    ({ cfg with SecretRef := "bunny-credentials" }, none)
  else if raw = "\x7b\"secretRef\":\"bunny-credentials\",\"secretNamespace\":\"dns\"\x7d" then
    ({ cfg with SecretRef := "bunny-credentials", SecretNamespace := "dns" }, none)
  else (cfg, some "invalid character")

/-- An environment for evaluation: strings are quoted by enclosing them in
double quotes (as Go does for printable text with no quote or backslash), the
provider answers every request with the given status, and the record id is
`4711`. -/
def exampleEnv (status : Int) : Env where
  jsonUnmarshal := exampleUnmarshal
  Quote := fun s => "\"" ++ s ++ "\""
  jsonString := fun s => "\"" ++ s ++ "\""
  httpDo := fun _ => (some ⟨status⟩, none)
  dnsRecordId := 4711

/-- An environment whose transport fails: no response and an error. -/
def offlineEnv : Env :=
  { exampleEnv 200 with httpDo := fun _ => (none, some "dial tcp: connection refused") }

/-- An environment whose transport, as `net/http` does, refuses a request that
has a control character other than a tab in a header value: it hands back no
response and an error.  Every other request is answered with status 200. -/
def strictEnv : Env :=
  { exampleEnv 200 with
    httpDo := fun req =>
      if req.Header.any fun kv =>
          kv.2.data.any fun c => (c.toNat < 32 && c != '\t') || c.toNat == 127 then
        (none, some "net/http: invalid header field value")
      else (some ⟨200⟩, none) }

/-- A secret store holding, in every namespace, a secret with the given data
under every name but the empty one, which it refuses as the cluster client
does. -/
def exampleClient (data : String → Option String) : Clientset where
  secretsGet := fun _ name =>
    if name = "" then .error "resource name may not be empty" else .ok ⟨data⟩

/-- Secret data with both fields. -/
def fullData (apiKey zoneId : String) : String → Option String :=
  fun k => if k = "api-key" then some apiKey else if k = "zone-id" then some zoneId else none

/-- Secret data with only the zone id. -/
def zoneOnlyData : String → Option String :=
  fun k => if k = "zone-id" then some "42" else none

/-- A challenge with no configuration. -/
def exampleChallenge : ChallengeRequest where
  DNSName := "_acme-challenge.example.com."
  Key := "tok"
  ResourceNamespace := "default"
  Config := none

/-- A challenge whose configuration is not a JSON document. -/
def brokenChallenge : ChallengeRequest :=
  { exampleChallenge with Config := some ⟨"secretRef"⟩ }

/-- A challenge whose configuration names a secret and a namespace. -/
def overrideChallenge : ChallengeRequest :=
  { exampleChallenge with
    Config := some ⟨"\x7b\"secretRef\":\"bunny-credentials\",\"secretNamespace\":\"dns\"\x7d"⟩ }

/-! ## Credential resolution -/

/-- An absent configuration is the zero configuration and no error. -/
theorem loadConfig_none (env : Env) : loadConfig env none = (⟨"", ""⟩, none) := rfl

/-- A configuration is rejected exactly when the decoder rejects it, and the
decoder's message is kept after a fixed text. -/
theorem loadConfig_some (env : Env) (j : JSON) :
    loadConfig env (some j) =
      ((env.jsonUnmarshal j.Raw ⟨"", ""⟩).1,
        (env.jsonUnmarshal j.Raw ⟨"", ""⟩).2.map fun e => "error decoding solver config: " ++ e) := by
  unfold loadConfig
  rcases h : env.jsonUnmarshal j.Raw ⟨"", ""⟩ with ⟨cfg, _ | e⟩ <;> simp [h]

/-- With a rejected configuration `getConfig` returns the error at once. -/
theorem getConfig_of_loadConfig_error (env : Env) (c : bunnyDNSProviderSolver)
    (ch : ChallengeRequest) (cfg : customDNSProviderConfig) (err : GoError)
    (hcfg : loadConfig env ch.Config = (cfg, some err)) :
    getConfig env c ch = ⟨[], .error err⟩ := by
  unfold getConfig
  rw [hcfg]

/-- With an accepted configuration and no client, `getConfig` panics on the nil
client before any lookup. -/
theorem getConfig_of_no_client (env : Env) (ch : ChallengeRequest)
    (cfg : customDNSProviderConfig) (hcfg : loadConfig env ch.Config = (cfg, none)) :
    getConfig env ⟨none⟩ ch = ⟨[], .crash⟩ := by
  unfold getConfig
  rw [hcfg]

/-- With an accepted configuration and a client, `getConfig` makes one lookup
and goes on from its answer. -/
theorem getConfig_of_loadConfig_ok (env : Env) (cl : Clientset) (ch : ChallengeRequest)
    (cfg : customDNSProviderConfig) (hcfg : loadConfig env ch.Config = (cfg, none)) :
    getConfig env ⟨some cl⟩ ch =
      ⟨[.secretGet (secretNamespaceOf cfg ch) cfg.SecretRef],
        match cl.secretsGet (secretNamespaceOf cfg ch) cfg.SecretRef with
        | .error err =>
          .error ("unable to get secret '" ++ secretNamespaceOf cfg ch ++ "/" ++ cfg.SecretRef ++
            "': " ++ err)
        | .ok sec =>
          match sec.Data "api-key" with
          | none =>
            .error ("unable to get 'api-key' from secret '" ++ secretNamespaceOf cfg ch ++ "/" ++
              cfg.SecretRef ++ "': " ++ ("key " ++ env.Quote "api-key" ++ " not found in secret data"))
          | some apiKey =>
            match sec.Data "zone-id" with
            | none =>
              .error ("unable to get 'zone-id' from secret '" ++ secretNamespaceOf cfg ch ++ "/" ++
                cfg.SecretRef ++ "': " ++ ("key " ++ env.Quote "zone-id" ++ " not found in secret data"))
            | some zoneIdStr =>
              match Atoi zoneIdStr with
              | .error e =>
                .error ("unable to get 'zone-id' from secret '" ++ secretNamespaceOf cfg ch ++
                  "/" ++ cfg.SecretRef ++ "': " ++ e.Error env)
              | .ok zoneId => .ok ⟨apiKey, zoneId⟩⟩ := by
  unfold getConfig
  rw [hcfg]
  simp only [stringFromSecretData]
  rcases cl.secretsGet (secretNamespaceOf cfg ch) cfg.SecretRef with e | sec
  · rfl
  · rcases h1 : sec.Data "api-key" with _ | apiKey
    · simp [h1]
    · rcases h2 : sec.Data "zone-id" with _ | z
      · simp [h1, h2]
      · rcases h3 : Atoi z with e | n <;> simp [h1, h2, h3]

/-- C1: whenever the configuration is accepted, `getConfig` makes exactly one
secret lookup; its namespace is the configuration's `secretNamespace` when that
is not empty and the request's `ResourceNamespace` otherwise, and its name is
the configuration's `secretRef`.  An absent configuration is accepted as the
zero configuration, so the request's own namespace is used. -/
theorem getConfig_secret_lookup (env : Env) (cl : Clientset) (ch : ChallengeRequest) :
    (ch.Config = none →
      loadConfig env ch.Config = (⟨"", ""⟩, none) ∧
      (getConfig env ⟨some cl⟩ ch).trace = [.secretGet ch.ResourceNamespace ""]) ∧
    (∀ cfg, loadConfig env ch.Config = (cfg, none) →
      (cfg.SecretNamespace ≠ "" →
        (getConfig env ⟨some cl⟩ ch).trace =
          [.secretGet cfg.SecretNamespace cfg.SecretRef]) ∧
      (cfg.SecretNamespace = "" →
        (getConfig env ⟨some cl⟩ ch).trace =
          [.secretGet ch.ResourceNamespace cfg.SecretRef])) := by
  refine ⟨fun hnone => ?_, fun cfg hcfg => ⟨fun hne => ?_, fun he => ?_⟩⟩
  · have hcfg : loadConfig env ch.Config = (⟨"", ""⟩, none) := by rw [hnone]; rfl
    refine ⟨hcfg, ?_⟩
    rw [getConfig_of_loadConfig_ok env cl ch _ hcfg]
    simp [secretNamespaceOf]
  · rw [getConfig_of_loadConfig_ok env cl ch _ hcfg]
    simp [secretNamespaceOf, hne]
  · rw [getConfig_of_loadConfig_ok env cl ch _ hcfg]
    simp [secretNamespaceOf, he]

/-- C1 at a request whose configuration names the namespace `dns`, and at a
request with no configuration in namespace `default`. -/
theorem getConfig_secret_lookup_witness :
    (getConfig (exampleEnv 200) ⟨some (exampleClient (fullData "K" "42"))⟩
        overrideChallenge).trace = [.secretGet "dns" "bunny-credentials"] ∧
    (getConfig (exampleEnv 200) ⟨some (exampleClient (fullData "K" "42"))⟩
        exampleChallenge).trace = [.secretGet "default" ""] :=
  ⟨((getConfig_secret_lookup (exampleEnv 200) (exampleClient (fullData "K" "42"))
      overrideChallenge).2 ⟨"bunny-credentials", "dns"⟩ rfl).1 (by decide),
   ((getConfig_secret_lookup (exampleEnv 200) (exampleClient (fullData "K" "42"))
      exampleChallenge).1 rfl).2⟩

/-- C2: when the configuration is accepted and the secret is found but its data
has no `api-key` entry, `getConfig` returns an error and no credentials, whether
or not `zone-id` is there; the message names the field `api-key` and the secret
`<namespace>/<secretRef>` that was looked up. -/
theorem getConfig_missing_api_key (env : Env) (cl : Clientset) (ch : ChallengeRequest)
    (cfg : customDNSProviderConfig) (sec : Secret)
    (hcfg : loadConfig env ch.Config = (cfg, none))
    (hsec : cl.secretsGet (secretNamespaceOf cfg ch) cfg.SecretRef = .ok sec)
    (hkey : sec.Data "api-key" = none) :
    getConfig env ⟨some cl⟩ ch =
      ⟨[.secretGet (secretNamespaceOf cfg ch) cfg.SecretRef],
        .error ("unable to get 'api-key' from secret '" ++ secretNamespaceOf cfg ch ++ "/" ++
          cfg.SecretRef ++ "': " ++ ("key " ++ env.Quote "api-key" ++ " not found in secret data"))⟩ := by
  rw [getConfig_of_loadConfig_ok env cl ch cfg hcfg, hsec]
  simp [hkey]

/-- C2 at a secret that has a `zone-id` and no `api-key`. -/
theorem getConfig_missing_api_key_witness :
    getConfig (exampleEnv 200) ⟨some (exampleClient zoneOnlyData)⟩ overrideChallenge =
      ⟨[.secretGet "dns" "bunny-credentials"],
        .error ("unable to get 'api-key' from secret 'dns/bunny-credentials': " ++
          "key \"api-key\" not found in secret data")⟩ :=
  getConfig_missing_api_key (exampleEnv 200) (exampleClient zoneOnlyData) overrideChallenge
    ⟨"bunny-credentials", "dns"⟩ ⟨zoneOnlyData⟩ rfl rfl rfl

/-- An error of `Atoi` carries the function name `Atoi` and the text that was
parsed. -/
theorem Atoi_error_fields (s : String) (e : NumError) (h : Atoi s = .error e) :
    e.Func = "Atoi" ∧ e.Num = s := by
  unfold Atoi at h
  split at h
  · cases h; exact ⟨rfl, rfl⟩
  · dsimp only at h
    split_ifs at h
    all_goals first
      | (cases h; exact ⟨rfl, rfl⟩)
      | (split at h
         all_goals first
           | (cases h; exact ⟨rfl, rfl⟩)
           | (split_ifs at h
              all_goals (cases h; exact ⟨rfl, rfl⟩)))

/-- Reading more digits does not make the number smaller. -/
theorem le_digitsFrom (cs : List Char) (n : Nat) : n ≤ digitsFrom n cs := by
  induction cs generalizing n with
  | nil => exact Nat.le_refl n
  | cons c cs ih =>
    have h := ih (n * 10 + (c.toNat - 48))
    show n ≤ digitsFrom (n * 10 + (c.toNat - 48)) cs
    omega

/-- The digit loop at the end of the text. -/
theorem parseUintLoop_nil (n : Nat) : parseUintLoop [] n = .ok n := rfl

/-- The digit loop at a character, with the two bounds written out. -/
theorem parseUintLoop_cons (c : Char) (cs : List Char) (n : Nat) :
    parseUintLoop (c :: cs) n =
      if c.isDigit then
        if n ≥ 1844674407370955162 then .error .ErrRange
        else if n * 10 + (c.toNat - 48) > 18446744073709551615 then .error .ErrRange
        else parseUintLoop cs (n * 10 + (c.toNat - 48))
      else .error .ErrSyntax := rfl

/-- The digit loop succeeds exactly on decimal digits whose number fits 64 bits. -/
theorem parseUintLoop_ok_iff (cs : List Char) (n m : Nat) :
    parseUintLoop cs n = .ok m ↔
      (∀ c ∈ cs, c.isDigit = true) ∧ digitsFrom n cs = m ∧
        (cs ≠ [] → m ≤ 18446744073709551615) := by
  induction cs generalizing n with
  | nil =>
    rw [parseUintLoop_nil]
    show Except.ok n = Except.ok m ↔ _ ∧ n = m ∧ _
    simp
  | cons c cs ih =>
    have hmono := le_digitsFrom cs (n * 10 + (c.toNat - 48))
    rw [parseUintLoop_cons]
    show _ ↔ _ ∧ digitsFrom (n * 10 + (c.toNat - 48)) cs = m ∧ _
    by_cases hd : c.isDigit = true
    · simp only [hd, if_true, List.mem_cons, forall_eq_or_imp, true_and]
      split_ifs with h1 h2
      · simp only [reduceCtorEq, false_iff]
        rintro ⟨-, rfl, hm⟩
        have := hm (by simp)
        omega
      · simp only [reduceCtorEq, false_iff]
        rintro ⟨-, rfl, hm⟩
        have := hm (by simp)
        omega
      · rw [ih]
        constructor
        · rintro ⟨ha, rfl, hm⟩
          refine ⟨ha, rfl, fun _ => ?_⟩
          by_cases hcs : cs = []
          · subst hcs
            show n * 10 + (c.toNat - 48) ≤ _
            omega
          · exact hm hcs
        · rintro ⟨ha, rfl, hm⟩
          exact ⟨ha, rfl, fun _ => hm (by simp)⟩
    · simp [hd]

/-- A decimal digit is not a sign. -/
theorem isDigit_ne_sign (c : Char) (h : c.isDigit = true) : c ≠ '+' ∧ c ≠ '-' := by
  constructor <;> rintro rfl <;> exact absurd h (by decide)

/-- The function `Atoi` on a text that is not empty, with the bounds written out. -/
theorem Atoi_cons (s : String) (c : Char) (rest : List Char) (hs : s.data = c :: rest) :
    Atoi s =
      if (if c = '+' ∨ c = '-' then rest else c :: rest) = [] then
        .error ⟨"Atoi", s, .ErrSyntax⟩
      else
        match parseUintLoop (if c = '+' ∨ c = '-' then rest else c :: rest) 0 with
        | .error k => .error ⟨"Atoi", s, k⟩
        | .ok un =>
          if c ≠ '-' ∧ un ≥ 9223372036854775808 then .error ⟨"Atoi", s, .ErrRange⟩
          else if c = '-' ∧ un > 9223372036854775808 then .error ⟨"Atoi", s, .ErrRange⟩
          else .ok (if c = '-' then -(un : Int) else (un : Int)) := by
  unfold Atoi
  rw [hs]
  rfl

/-- The function `Atoi` accepts a sign and digits whose number is in range. -/
theorem Atoi_of_digits (s : String) (c : Char) (rest digits : List Char) (neg : Bool)
    (hs : s.data = c :: rest)
    (hdig : (if c = '+' ∨ c = '-' then rest else c :: rest) = digits)
    (hneg : (c = '-') ↔ neg = true)
    (hne : digits ≠ []) (hall : ∀ d ∈ digits, d.isDigit = true)
    (hlo : neg = true → digitsFrom 0 digits ≤ 9223372036854775808)
    (hhi : neg = false → digitsFrom 0 digits < 9223372036854775808) :
    Atoi s = .ok (if neg = true then -(digitsFrom 0 digits : Int) else (digitsFrom 0 digits : Int)) := by
  have hloop : parseUintLoop digits 0 = .ok (digitsFrom 0 digits) := by
    rw [parseUintLoop_ok_iff]
    refine ⟨hall, rfl, fun _ => ?_⟩
    cases neg
    · have := hhi rfl
      omega
    · have := hlo rfl
      omega
  rw [Atoi_cons s c rest hs, hdig, if_neg hne, hloop]
  cases neg
  · have hc : c ≠ '-' := fun h => by simpa using hneg.1 h
    have := hhi rfl
    simp only [hc, ne_eq, not_false_eq_true, true_and, false_and, if_false]
    rw [if_neg (by omega)]
    simp
  · have hc : c = '-' := hneg.2 rfl
    have := hlo rfl
    simp only [hc, ne_eq, not_true_eq_false, false_and, if_false, true_and]
    rw [if_neg (by omega)]

/-- The function `Atoi` returns `n` exactly on the texts that are the decimal
integer `n` of 64 bits. -/
theorem Atoi_ok_iff (s : String) (n : Int) : Atoi s = .ok n ↔ IsInt64Text s n := by
  constructor
  · intro h
    rcases hs : s.data with _ | ⟨c, rest⟩
    · unfold Atoi at h
      rw [hs] at h
      cases h
    · rw [Atoi_cons s c rest hs] at h
      generalize hdig : (if c = '+' ∨ c = '-' then rest else c :: rest) = digits at h
      by_cases hnil : digits = []
      · rw [if_pos hnil] at h
        cases h
      · rw [if_neg hnil] at h
        rcases hl : parseUintLoop digits 0 with k | un
        · rw [hl] at h
          cases h
        · rw [hl] at h
          rw [parseUintLoop_ok_iff] at hl
          obtain ⟨hall, hval, -⟩ := hl
          by_cases hm : c = '-'
          · subst hm
            have hd : rest = digits := by simpa using hdig
            subst hd
            by_cases hr : un > 9223372036854775808
            · simp [hr] at h
            · simp [hr] at h
              refine ⟨['-'], rest, hs, Or.inr (Or.inr rfl), hnil, hall, ?_, ?_, ?_⟩
              · rw [if_pos rfl, hval, h]
              · omega
              · omega
          · by_cases hr : un ≥ 9223372036854775808
            · simp [hm, hr] at h
            · simp [hm, hr] at h
              by_cases hp : c = '+'
              · subst hp
                have hd : rest = digits := by simpa using hdig
                subst hd
                refine ⟨['+'], rest, hs, Or.inr (Or.inl rfl), hnil, hall, ?_, ?_, ?_⟩
                · rw [if_neg (by decide), hval, h]
                · omega
                · omega
              · have hd : c :: rest = digits := by simpa [hp, hm] using hdig
                subst hd
                refine ⟨[], c :: rest, hs, Or.inl rfl, hnil, hall, ?_, ?_, ?_⟩
                · rw [if_neg (by decide), hval, h]
                · omega
                · omega
  · rintro ⟨sign, digits, hs, hsign, hne, hall, hn, hlo, hhi⟩
    obtain ⟨d, ds, rfl⟩ := List.exists_cons_of_ne_nil hne
    have hd := isDigit_ne_sign d (hall d (by simp))
    rcases hsign with rfl | rfl | rfl
    · have := Atoi_of_digits s d ds (d :: ds) false (by simpa using hs)
        (by simp [hd.1, hd.2]) (by simp [hd.2]) hne hall (by simp)
        (fun _ => by simp at hn; omega)
      rw [this, hn]
      simp
    · have := Atoi_of_digits s '+' (d :: ds) (d :: ds) false (by simpa using hs)
        (by simp) (by decide) hne hall (by simp)
        (fun _ => by simp at hn; omega)
      rw [this, hn]
      simp
    · have := Atoi_of_digits s '-' (d :: ds) (d :: ds) true (by simpa using hs)
        (by simp) (by decide) hne hall (fun _ => by simp at hn; omega) (by simp)
      rw [this, hn]
      simp
/-- C3: when the configuration is accepted and the secret found has an `api-key`
entry, `getConfig` succeeds exactly when the `zone-id` entry is there and is the
text of a decimal integer of 64 bits, which is what `strconv.Atoi` accepts.  On
success the zone identifier is that integer and the API key is the `api-key`
entry.  When `zone-id` is there and is no such text, the call fails with the
`strconv.Atoi` parse error for that text (a syntax or a range error), after a
text that names the field `zone-id` and the secret `<namespace>/<secretRef>`. -/
theorem getConfig_zone_id (env : Env) (cl : Clientset) (ch : ChallengeRequest)
    (cfg : customDNSProviderConfig) (sec : Secret) (apiKey : String)
    (hcfg : loadConfig env ch.Config = (cfg, none))
    (hsec : cl.secretsGet (secretNamespaceOf cfg ch) cfg.SecretRef = .ok sec)
    (hkey : sec.Data "api-key" = some apiKey) :
    ((∃ r, (getConfig env ⟨some cl⟩ ch).result = .ok r) ↔
      ∃ z n, sec.Data "zone-id" = some z ∧ IsInt64Text z n) ∧
    (∀ z n, sec.Data "zone-id" = some z → IsInt64Text z n →
      Atoi z = .ok n ∧ (getConfig env ⟨some cl⟩ ch).result = .ok ⟨apiKey, n⟩) ∧
    (∀ z, sec.Data "zone-id" = some z → (∀ n, ¬ IsInt64Text z n) →
      ∃ k, Atoi z = .error ⟨"Atoi", z, k⟩ ∧
        (getConfig env ⟨some cl⟩ ch).result =
          .error ("unable to get 'zone-id' from secret '" ++ secretNamespaceOf cfg ch ++ "/" ++
            cfg.SecretRef ++ "': " ++
            ("strconv.Atoi: parsing " ++ env.Quote z ++ ": " ++ k.Error))) := by
  rw [getConfig_of_loadConfig_ok env cl ch cfg hcfg, hsec]
  simp only [hkey]
  refine ⟨?_, ?_, ?_⟩
  · rcases h2 : sec.Data "zone-id" with _ | z
    · simp
    · rcases h3 : Atoi z with e | n
      · have hno : ∀ n, ¬ IsInt64Text z n := fun n hn => by
          rw [← Atoi_ok_iff, h3] at hn
          cases hn
        simp [h3, hno]
      · have hn : IsInt64Text z n := (Atoi_ok_iff z n).1 h3
        simp only [h3]
        exact ⟨fun _ => ⟨z, n, rfl, hn⟩, fun _ => ⟨_, rfl⟩⟩
  · intro z n h2 hn
    have h3 := (Atoi_ok_iff z n).2 hn
    simp [h2, h3]
  · intro z h2 hno
    rcases h3 : Atoi z with e | n
    · obtain ⟨hf, hnum⟩ := Atoi_error_fields z e h3
      obtain ⟨f, num, k⟩ := e
      simp only at hf hnum
      subst hf hnum
      refine ⟨k, rfl, ?_⟩
      simp [h2, h3, NumError.Error, String.append_assoc]
    · exact absurd ((Atoi_ok_iff z n).1 h3) (hno n)

/-- C3 at a secret whose `zone-id` is the text `4x2`: the call fails with the
syntax error of `strconv.Atoi`. -/
theorem getConfig_zone_id_witness :
    ∃ k, Atoi "4x2" = .error ⟨"Atoi", "4x2", k⟩ ∧
      (getConfig (exampleEnv 200) ⟨some (exampleClient (fullData "K" "4x2"))⟩
        overrideChallenge).result =
      .error ("unable to get 'zone-id' from secret 'dns/bunny-credentials': " ++
        ("strconv.Atoi: parsing " ++ "\"4x2\"" ++ ": " ++ k.Error)) :=
  (getConfig_zone_id (exampleEnv 200) (exampleClient (fullData "K" "4x2")) overrideChallenge
    ⟨"bunny-credentials", "dns"⟩ ⟨fullData "K" "4x2"⟩ "K" rfl rfl rfl).2.2 "4x2" rfl
      (fun n hn => by
        have h := (Atoi_ok_iff "4x2" n).2 hn
        cases h)

/-! ## Present and CleanUp -/

/-- The run of `getConfig` makes no HTTP request. -/
theorem getConfig_requests (env : Env) (c : bunnyDNSProviderSolver) (ch : ChallengeRequest) :
    (getConfig env c ch).requests = [] := by
  rcases hc : loadConfig env ch.Config with ⟨cfg, _ | err⟩
  · rcases c with ⟨_ | cl⟩
    · rw [getConfig_of_no_client env ch cfg hc]; rfl
    · rw [getConfig_of_loadConfig_ok env cl ch cfg hc]; rfl
  · rw [getConfig_of_loadConfig_error env c ch cfg err hc]; rfl

/-- The run of `Present` in terms of the run of `getConfig`. -/
theorem Present_eq (env : Env) (c : bunnyDNSProviderSolver) (ch : ChallengeRequest) :
    Present env c ch =
      match (getConfig env c ch).result with
      | .error err => ⟨(getConfig env c ch).trace, .error err⟩
      | .crash => ⟨(getConfig env c ch).trace, .crash⟩
      | .ok cfg =>
        ⟨(getConfig env c ch).trace ++ [.httpDo (presentRequest env cfg ch)],
          match (env.httpDo (presentRequest env cfg ch)).1 with
          | none => .crash
          | some _ => .ok ()⟩ := by
  unfold Present
  rcases getConfig env c ch with ⟨tr, _ | _ | _⟩
  · simp only
    rcases env.httpDo _ with ⟨_ | res, e⟩ <;> simp
  · rfl
  · rfl

/-- The run of `CleanUp` in terms of the run of `getConfig`. -/
theorem CleanUp_eq (env : Env) (c : bunnyDNSProviderSolver) (ch : ChallengeRequest) :
    CleanUp env c ch =
      match (getConfig env c ch).result with
      | .error err => ⟨(getConfig env c ch).trace, .error err⟩
      | .crash => ⟨(getConfig env c ch).trace, .crash⟩
      | .ok cfg =>
        ⟨(getConfig env c ch).trace ++ [.httpDo (cleanUpRequest env cfg)],
          match (env.httpDo (cleanUpRequest env cfg)).1 with
          | none => .crash
          | some _ => .ok ()⟩ := by
  unfold CleanUp
  rcases getConfig env c ch with ⟨tr, _ | _ | _⟩
  · simp only
    rcases env.httpDo _ with ⟨_ | res, e⟩ <;> simp
  · rfl
  · rfl

/-- With resolved credentials `Present` issues the one request it built. -/
theorem Present_requests_of_ok (env : Env) (c : bunnyDNSProviderSolver) (ch : ChallengeRequest)
    (cfg : bunnyDNSApiConfig) (h : (getConfig env c ch).result = .ok cfg) :
    (Present env c ch).requests = [presentRequest env cfg ch] := by
  have hg := getConfig_requests env c ch
  rw [Present_eq, h]
  simp only [Run.requests] at hg ⊢
  simp [List.filterMap_append, hg, Event.toRequest]

/-- With resolved credentials `CleanUp` issues the one request it built. -/
theorem CleanUp_requests_of_ok (env : Env) (c : bunnyDNSProviderSolver) (ch : ChallengeRequest)
    (cfg : bunnyDNSApiConfig) (h : (getConfig env c ch).result = .ok cfg) :
    (CleanUp env c ch).requests = [cleanUpRequest env cfg] := by
  have hg := getConfig_requests env c ch
  rw [CleanUp_eq, h]
  simp only [Run.requests] at hg ⊢
  simp [List.filterMap_append, hg, Event.toRequest]

/-- The canonical forms of the three header names the solver sets. -/
theorem canonical_header_keys :
    CanonicalMIMEHeaderKey "accept" = "Accept" ∧
    CanonicalMIMEHeaderKey "content-type" = "Content-Type" ∧
    CanonicalMIMEHeaderKey "AccessKey" = "Accesskey" := by
  decide

/-- C4: when the credentials resolve to `apiKey` and `zoneId`, `Present` issues
exactly one outbound HTTP request.  Its method is `PUT`, its URL is
`https://api.bunny.net/dnszone/` followed by the decimal `zoneId` and `/records`,
and it carries exactly three header entries: `accept: application/json`,
`content-type: application/json` and `AccessKey: apiKey`, stored as Go stores
them, under the canonical spelling of each name; HTTP header names do not
distinguish case, and `Header.Get` finds each under the name the source
wrote. -/
theorem Present_request (env : Env) (cl : Clientset) (ch : ChallengeRequest)
    (apiKey : String) (zoneId : Int)
    (h : (getConfig env ⟨some cl⟩ ch).result = .ok ⟨apiKey, zoneId⟩) :
    ∃ req, (Present env ⟨some cl⟩ ch).requests = [req] ∧
      req.Method = "PUT" ∧
      req.URL = "https://api.bunny.net/dnszone/" ++ Itoa zoneId ++ "/records" ∧
      req.Header = [("Accept", "application/json"), ("Content-Type", "application/json"),
        ("Accesskey", apiKey)] ∧
      req.headerGet "accept" = "application/json" ∧
      req.headerGet "content-type" = "application/json" ∧
      req.headerGet "AccessKey" = apiKey := by
  obtain ⟨k1, k2, k3⟩ := canonical_header_keys
  refine ⟨_, Present_requests_of_ok env _ ch _ h, rfl, rfl, ?_, ?_, ?_, ?_⟩
  · simp [presentRequest, HttpRequest.headerAdd, NewRequest, k1, k2, k3]
  · simp [presentRequest, HttpRequest.headerAdd, HttpRequest.headerGet, NewRequest, k1, k2, k3,
      List.lookup]
  · simp [presentRequest, HttpRequest.headerAdd, HttpRequest.headerGet, NewRequest, k1, k2, k3,
      List.lookup]
  · simp [presentRequest, HttpRequest.headerAdd, HttpRequest.headerGet, NewRequest, k1, k2, k3,
      List.lookup]

/-- C4 at a request whose configuration names the secret, which holds API key
`K` and zone `42`: the one request is a `PUT` to
`https://api.bunny.net/dnszone/42/records`. -/
theorem Present_request_witness :
    ∃ req, (Present (exampleEnv 200) ⟨some (exampleClient (fullData "K" "42"))⟩
        overrideChallenge).requests = [req] ∧
      req.Method = "PUT" ∧
      req.URL = "https://api.bunny.net/dnszone/42/records" ∧
      req.Header = [("Accept", "application/json"), ("Content-Type", "application/json"),
        ("Accesskey", "K")] ∧
      req.headerGet "accept" = "application/json" ∧
      req.headerGet "content-type" = "application/json" ∧
      req.headerGet "AccessKey" = "K" :=
  Present_request (exampleEnv 200) (exampleClient (fullData "K" "42")) overrideChallenge
    "K" 42 rfl

/-- The text of the body `Present` sends. -/
theorem Marshal_text (env : Env) (id : Int) (value name : String) :
    Marshal env { Id := id, «Type» := 3, Value := value, Name := name } =
      "\x7b\"Id\":" ++ Itoa id ++ ",\"Type\":3,\"Value\":" ++ env.jsonString value ++
        ",\"Name\":" ++ env.jsonString name ++ "\x7d" := by
  have h3 : Itoa 3 = "3" := by decide
  unfold Marshal JObject.text NewDnsRecordRequest.toJSON
  simp only [List.map, JScalar.text, String.intercalate, String.intercalate.go, h3]
  generalize Itoa id = a
  generalize env.jsonString value = c
  generalize env.jsonString name = d
  rcases a with ⟨a⟩
  rcases c with ⟨c⟩
  rcases d with ⟨d⟩
  apply String.ext
  simp [String.data_append]

/-- C5, as the code has it: when the credentials resolve, `Present` issues one
request, and its body is the JSON text of the object with exactly four members,
named `Id`, `Type`, `Value` and `Name` in that order (the Go field names, as the
struct has no field tags): `Id` is the number `dnsRecordId`, `Type` the number
3, `Value` the request's `Key` and `Name` the request's `DNSName`. -/
theorem Present_body (env : Env) (cl : Clientset) (ch : ChallengeRequest)
    (apiKey : String) (zoneId : Int)
    (h : (getConfig env ⟨some cl⟩ ch).result = .ok ⟨apiKey, zoneId⟩) :
    ∃ req, (Present env ⟨some cl⟩ ch).requests = [req] ∧
      req.Body = some (JObject.text env
        ⟨[("Id", .number (env.dnsRecordId.val : Int)), ("Type", .number 3),
          ("Value", .string ch.Key), ("Name", .string ch.DNSName)]⟩) ∧
      req.Body = some ("\x7b\"Id\":" ++ Itoa (env.dnsRecordId.val : Int) ++
        ",\"Type\":3,\"Value\":" ++ env.jsonString ch.Key ++
        ",\"Name\":" ++ env.jsonString ch.DNSName ++ "\x7d") :=
  ⟨_, Present_requests_of_ok env _ ch _ h, rfl,
    congrArg some (Marshal_text env _ ch.Key ch.DNSName)⟩

/-- C5 as amended, at a request whose configuration names the secret, with key
`tok`, name `_acme-challenge.example.com.` and record id 4711: the text of the
body. -/
theorem Present_body_witness :
    ∃ req, (Present (exampleEnv 200) ⟨some (exampleClient (fullData "K" "42"))⟩
        overrideChallenge).requests = [req] ∧
      req.Body = some (JObject.text (exampleEnv 200)
        ⟨[("Id", .number 4711), ("Type", .number 3), ("Value", .string "tok"),
          ("Name", .string "_acme-challenge.example.com.")]⟩) ∧
      req.Body = some ("\x7b\"Id\":4711,\"Type\":3,\"Value\":\"tok\"," ++
        "\"Name\":\"_acme-challenge.example.com.\"\x7d") :=
  Present_body (exampleEnv 200) (exampleClient (fullData "K" "42")) overrideChallenge "K" 42 rfl

/-- C5 as written fails: at a request whose configuration names the secret
`dns/bunny-credentials`, which holds API key `K` and zone `42`, with key `tok`,
name `_acme-challenge.example.com.` and record id 4711, `Present` sends one
`PUT`; its body starts with the member `Id`, and it is not the text of the
object with members `id`, `type`, `value` and `name`. -/
theorem Present_body_not_lowercase :
    (Present (exampleEnv 200) ⟨some (exampleClient (fullData "K" "42"))⟩
        overrideChallenge).requests.map HttpRequest.Body =
      [some ("\x7b\"Id\":4711,\"Type\":3,\"Value\":\"tok\"," ++
        "\"Name\":\"_acme-challenge.example.com.\"\x7d")] ∧
    (Present (exampleEnv 200) ⟨some (exampleClient (fullData "K" "42"))⟩
        overrideChallenge).requests.map HttpRequest.Body ≠
      [some (JObject.text (exampleEnv 200)
        ⟨[("id", .number 4711), ("type", .number 3), ("value", .string "tok"),
          ("name", .string "_acme-challenge.example.com.")]⟩)] := by
  decide

/-- C6: when the credentials resolve to `apiKey` and `zoneId`, `CleanUp` issues
exactly one outbound HTTP request: a `DELETE` with no body to
`https://api.bunny.net/dnszone/{zoneId}/records/{id}` with exactly the two
header entries `accept: application/json` and `AccessKey: apiKey`, where `{id}`
is the decimal rendering of `dnsRecordId`.  In the same process `Present` issues
one request whose body is the object whose `Id` member is that same number, and
the URL of `CleanUp` is the URL of `Present` followed by `/` and `{id}`. -/
theorem CleanUp_request (env : Env) (cl : Clientset) (ch : ChallengeRequest)
    (apiKey : String) (zoneId : Int)
    (h : (getConfig env ⟨some cl⟩ ch).result = .ok ⟨apiKey, zoneId⟩) :
    ∃ del put, (CleanUp env ⟨some cl⟩ ch).requests = [del] ∧
      (Present env ⟨some cl⟩ ch).requests = [put] ∧
      del.Method = "DELETE" ∧ del.Body = none ∧
      del.URL = "https://api.bunny.net/dnszone/" ++ Itoa zoneId ++ "/records/" ++
        Itoa (env.dnsRecordId.val : Int) ∧
      del.Header = [("Accept", "application/json"), ("Accesskey", apiKey)] ∧
      del.headerGet "accept" = "application/json" ∧
      del.headerGet "AccessKey" = apiKey ∧
      put.Body = some (JObject.text env
        ⟨[("Id", .number (env.dnsRecordId.val : Int)), ("Type", .number 3),
          ("Value", .string ch.Key), ("Name", .string ch.DNSName)]⟩) ∧
      del.URL = put.URL ++ "/" ++ Itoa (env.dnsRecordId.val : Int) := by
  obtain ⟨k1, -, k3⟩ := canonical_header_keys
  refine ⟨_, _, CleanUp_requests_of_ok env _ ch _ h, Present_requests_of_ok env _ ch _ h,
    rfl, rfl, rfl, ?_, ?_, ?_, rfl, ?_⟩
  · simp [cleanUpRequest, HttpRequest.headerAdd, NewRequest, k1, k3]
  · simp [cleanUpRequest, HttpRequest.headerAdd, HttpRequest.headerGet, NewRequest, k1, k3,
      List.lookup]
  · simp [cleanUpRequest, HttpRequest.headerAdd, HttpRequest.headerGet, NewRequest, k1, k3,
      List.lookup]
  · simp [cleanUpRequest, presentRequest, HttpRequest.headerAdd, NewRequest, String.append_assoc]

/-- C6 at a request whose configuration names the secret, which holds API key
`K` and zone `42`, with record id 4711. -/
theorem CleanUp_request_witness :
    ∃ del put, (CleanUp (exampleEnv 500) ⟨some (exampleClient (fullData "K" "42"))⟩
        overrideChallenge).requests = [del] ∧
      (Present (exampleEnv 500) ⟨some (exampleClient (fullData "K" "42"))⟩
        overrideChallenge).requests = [put] ∧
      del.Method = "DELETE" ∧ del.Body = none ∧
      del.URL = "https://api.bunny.net/dnszone/42/records/4711" ∧
      del.Header = [("Accept", "application/json"), ("Accesskey", "K")] ∧
      del.headerGet "accept" = "application/json" ∧
      del.headerGet "AccessKey" = "K" ∧
      put.Body = some (JObject.text (exampleEnv 500)
        ⟨[("Id", .number 4711), ("Type", .number 3), ("Value", .string "tok"),
          ("Name", .string "_acme-challenge.example.com.")]⟩) ∧
      del.URL = put.URL ++ "/" ++ "4711" :=
  CleanUp_request (exampleEnv 500) (exampleClient (fullData "K" "42")) overrideChallenge
    "K" 42 rfl

/-- C7: when the credentials resolve and the transport hands back a response,
`Present` returns a nil error whatever the status code of the response, and so
does `CleanUp`. -/
theorem status_never_reported (env : Env) (cl : Clientset) (ch : ChallengeRequest)
    (cfg : bunnyDNSApiConfig) (h : (getConfig env ⟨some cl⟩ ch).result = .ok cfg) :
    (∀ res err, env.httpDo (presentRequest env cfg ch) = (some res, err) →
      (Present env ⟨some cl⟩ ch).result = .ok ()) ∧
    (∀ res err, env.httpDo (cleanUpRequest env cfg) = (some res, err) →
      (CleanUp env ⟨some cl⟩ ch).result = .ok ()) := by
  constructor
  · intro res err hdo
    rw [Present_eq, h]
    simp [hdo]
  · intro res err hdo
    rw [CleanUp_eq, h]
    simp [hdo]

/-- C7 at a provider that answers 500. -/
theorem status_never_reported_witness :
    (Present (exampleEnv 500) ⟨some (exampleClient (fullData "K" "42"))⟩
        overrideChallenge).result = .ok () ∧
    (CleanUp (exampleEnv 500) ⟨some (exampleClient (fullData "K" "42"))⟩
        overrideChallenge).result = .ok () :=
  ⟨(status_never_reported (exampleEnv 500) (exampleClient (fullData "K" "42")) overrideChallenge
      ⟨"K", 42⟩ rfl).1 ⟨500⟩ none rfl,
   (status_never_reported (exampleEnv 500) (exampleClient (fullData "K" "42")) overrideChallenge
      ⟨"K", 42⟩ rfl).2 ⟨500⟩ none rfl⟩

/-- C9: when the credentials resolve and the transport hands back no response,
`Present` does not return: it panics on the nil response after issuing its
request, and so does `CleanUp`. -/
theorem transport_failure_crashes (env : Env) (cl : Clientset) (ch : ChallengeRequest)
    (cfg : bunnyDNSApiConfig) (h : (getConfig env ⟨some cl⟩ ch).result = .ok cfg) :
    (∀ err, env.httpDo (presentRequest env cfg ch) = (none, err) →
      (Present env ⟨some cl⟩ ch).result = .crash ∧
      (Present env ⟨some cl⟩ ch).requests = [presentRequest env cfg ch]) ∧
    (∀ err, env.httpDo (cleanUpRequest env cfg) = (none, err) →
      (CleanUp env ⟨some cl⟩ ch).result = .crash ∧
      (CleanUp env ⟨some cl⟩ ch).requests = [cleanUpRequest env cfg]) := by
  constructor
  · intro err hdo
    refine ⟨?_, Present_requests_of_ok env _ ch _ h⟩
    rw [Present_eq, h]
    simp [hdo]
  · intro err hdo
    refine ⟨?_, CleanUp_requests_of_ok env _ ch _ h⟩
    rw [CleanUp_eq, h]
    simp [hdo]

/-- C9 at a transport that refuses the connection. -/
theorem transport_failure_crashes_witness :
    (Present offlineEnv ⟨some (exampleClient (fullData "K" "42"))⟩ overrideChallenge).result =
      .crash ∧
    (CleanUp offlineEnv ⟨some (exampleClient (fullData "K" "42"))⟩ overrideChallenge).result =
      .crash :=
  ⟨((transport_failure_crashes offlineEnv (exampleClient (fullData "K" "42")) overrideChallenge
      ⟨"K", 42⟩ rfl).1 (some "dial tcp: connection refused") rfl).1,
   ((transport_failure_crashes offlineEnv (exampleClient (fullData "K" "42")) overrideChallenge
      ⟨"K", 42⟩ rfl).2 (some "dial tcp: connection refused") rfl).1⟩

/-- C8: `Present` and `CleanUp` return an error exactly when `getConfig` does,
and it is the same error; no outbound request is issued then.  `getConfig`
returns an error, before any secret lookup, when the configuration is not
accepted; after the lookup, when the secret store fails (the message names
`<namespace>/<secretRef>`), when `api-key` or `zone-id` is missing, or when
`zone-id` is not accepted by `Atoi`; and in no other case. -/
theorem errors_are_getConfig_errors (env : Env) (c : bunnyDNSProviderSolver) (cl : Clientset)
    (ch : ChallengeRequest) :
    (∀ e, (Present env c ch).result = .error e ↔ (getConfig env c ch).result = .error e) ∧
    (∀ e, (CleanUp env c ch).result = .error e ↔ (getConfig env c ch).result = .error e) ∧
    (∀ e, (getConfig env c ch).result = .error e →
      (Present env c ch).requests = [] ∧ (CleanUp env c ch).requests = []) ∧
    (∀ j cfg e, ch.Config = some j → env.jsonUnmarshal j.Raw ⟨"", ""⟩ = (cfg, some e) →
      getConfig env c ch = ⟨[], .error ("error decoding solver config: " ++ e)⟩) ∧
    (∀ cfg, loadConfig env ch.Config = (cfg, none) →
      (getConfig env ⟨some cl⟩ ch).lookups = [(secretNamespaceOf cfg ch, cfg.SecretRef)] ∧
      (∀ e, cl.secretsGet (secretNamespaceOf cfg ch) cfg.SecretRef = .error e →
        (getConfig env ⟨some cl⟩ ch).result =
          .error ("unable to get secret '" ++ secretNamespaceOf cfg ch ++ "/" ++ cfg.SecretRef ++
            "': " ++ e)) ∧
      (∀ sec, cl.secretsGet (secretNamespaceOf cfg ch) cfg.SecretRef = .ok sec →
        (sec.Data "api-key" = none →
          (getConfig env ⟨some cl⟩ ch).result =
            .error ("unable to get 'api-key' from secret '" ++ secretNamespaceOf cfg ch ++ "/" ++
              cfg.SecretRef ++ "': " ++
              ("key " ++ env.Quote "api-key" ++ " not found in secret data"))) ∧
        (∀ k, sec.Data "api-key" = some k → sec.Data "zone-id" = none →
          (getConfig env ⟨some cl⟩ ch).result =
            .error ("unable to get 'zone-id' from secret '" ++ secretNamespaceOf cfg ch ++ "/" ++
              cfg.SecretRef ++ "': " ++
              ("key " ++ env.Quote "zone-id" ++ " not found in secret data"))) ∧
        (∀ k z ne, sec.Data "api-key" = some k → sec.Data "zone-id" = some z →
          Atoi z = .error ne →
          (getConfig env ⟨some cl⟩ ch).result =
            .error ("unable to get 'zone-id' from secret '" ++ secretNamespaceOf cfg ch ++ "/" ++
              cfg.SecretRef ++ "': " ++ ne.Error env)) ∧
        (∀ k z n, sec.Data "api-key" = some k → sec.Data "zone-id" = some z →
          Atoi z = .ok n →
          (getConfig env ⟨some cl⟩ ch).result = .ok ⟨k, n⟩))) := by
  refine ⟨fun e => ?_, fun e => ?_, fun e he => ⟨?_, ?_⟩, fun j cfg e hj hu => ?_,
    fun cfg hcfg => ?_⟩
  · rw [Present_eq]
    rcases (getConfig env c ch).result with cfg | e2 | _
    · simp only
      rcases (env.httpDo (presentRequest env cfg ch)).1 with _ | res <;> simp
    · simp
    · simp
  · rw [CleanUp_eq]
    rcases (getConfig env c ch).result with cfg | e2 | _
    · simp only
      rcases (env.httpDo (cleanUpRequest env cfg)).1 with _ | res <;> simp
    · simp
    · simp
  · have hg := getConfig_requests env c ch
    rw [Present_eq, he]
    exact hg
  · have hg := getConfig_requests env c ch
    rw [CleanUp_eq, he]
    exact hg
  · apply getConfig_of_loadConfig_error env c ch cfg
    rw [hj, loadConfig_some, hu]
    rfl
  · rw [getConfig_of_loadConfig_ok env cl ch cfg hcfg]
    refine ⟨rfl, fun e he => ?_, fun sec hsec => ⟨fun h1 => ?_, fun k h1 h2 => ?_,
      fun k z ne h1 h2 h3 => ?_, fun k z n h1 h2 h3 => ?_⟩⟩
    · simp [he]
    · simp [hsec, h1]
    · simp [hsec, h1, h2]
    · simp [hsec, h1, h2, h3]
    · simp [hsec, h1, h2, h3]

/-- C8 at a configuration the decoder rejects: `getConfig` returns the decoding
error with no secret lookup, and `Present` and `CleanUp` return that error. -/
theorem errors_are_getConfig_errors_witness :
    getConfig (exampleEnv 200) ⟨some (exampleClient (fullData "K" "42"))⟩ brokenChallenge =
      ⟨[], .error "error decoding solver config: invalid character"⟩ ∧
    (Present (exampleEnv 200) ⟨some (exampleClient (fullData "K" "42"))⟩
        brokenChallenge).result =
      .error "error decoding solver config: invalid character" ∧
    (CleanUp (exampleEnv 200) ⟨some (exampleClient (fullData "K" "42"))⟩
        brokenChallenge).result =
      .error "error decoding solver config: invalid character" :=
  ⟨(errors_are_getConfig_errors (exampleEnv 200)
      ⟨some (exampleClient (fullData "K" "42"))⟩ (exampleClient (fullData "K" "42"))
      brokenChallenge).2.2.2.1 ⟨"secretRef"⟩ ⟨"", ""⟩ "invalid character" rfl rfl,
   ((errors_are_getConfig_errors (exampleEnv 200)
      ⟨some (exampleClient (fullData "K" "42"))⟩ (exampleClient (fullData "K" "42"))
      brokenChallenge).1 _).2 rfl,
   ((errors_are_getConfig_errors (exampleEnv 200)
      ⟨some (exampleClient (fullData "K" "42"))⟩ (exampleClient (fullData "K" "42"))
      brokenChallenge).2.1 _).2 rfl⟩

/-! ## Confinement of the API key -/

/-- The transport plays no part in credential resolution. -/
theorem getConfig_httpDo (env : Env) (D : HttpRequest → Option HttpResponse × Option GoError)
    (c : bunnyDNSProviderSolver) (ch : ChallengeRequest) :
    getConfig { env with httpDo := D } c ch = getConfig env c ch := rfl

/-- Against two secret stores that differ at most in the value of `api-key`,
`getConfig` makes the same lookups and either returns the same error, or panics
in both, or returns credentials with the same zone identifier. -/
theorem getConfig_sameUpToApiKey (env : Env) (cl1 cl2 : Clientset) (ch : ChallengeRequest)
    (hsec : ∀ ns name, SameUpToApiKey (cl1.secretsGet ns name) (cl2.secretsGet ns name)) :
    (getConfig env ⟨some cl1⟩ ch).trace = (getConfig env ⟨some cl2⟩ ch).trace ∧
    ((∃ e, (getConfig env ⟨some cl1⟩ ch).result = .error e ∧
        (getConfig env ⟨some cl2⟩ ch).result = .error e) ∨
      ∃ k1 k2 z, (getConfig env ⟨some cl1⟩ ch).result = .ok ⟨k1, z⟩ ∧
        (getConfig env ⟨some cl2⟩ ch).result = .ok ⟨k2, z⟩) := by
  rcases hc : loadConfig env ch.Config with ⟨cfg, _ | err⟩
  · rw [getConfig_of_loadConfig_ok env cl1 ch cfg hc, getConfig_of_loadConfig_ok env cl2 ch cfg hc]
    refine ⟨rfl, ?_⟩
    have h := hsec (secretNamespaceOf cfg ch) cfg.SecretRef
    rcases h1 : cl1.secretsGet (secretNamespaceOf cfg ch) cfg.SecretRef with e1 | s1 <;>
      rcases h2 : cl2.secretsGet (secretNamespaceOf cfg ch) cfg.SecretRef with e2 | s2 <;>
      rw [h1, h2] at h <;> simp only [SameUpToApiKey] at h
    · subst h
      exact Or.inl ⟨_, rfl, rfl⟩
    · obtain ⟨hrest, hkey⟩ := h
      have hz : s2.Data "zone-id" = s1.Data "zone-id" := (hrest _ (by decide)).symm
      rcases ha : s1.Data "api-key" with _ | k1 <;>
        rcases hb : s2.Data "api-key" with _ | k2 <;>
        rw [ha, hb] at hkey <;> simp at hkey <;> simp only [ha, hb, hz]
      · exact Or.inl ⟨_, rfl, rfl⟩
      · rcases hd : s1.Data "zone-id" with _ | z <;> simp only [hd]
        · exact Or.inl ⟨_, rfl, rfl⟩
        · rcases hn : Atoi z with ne | n <;> simp only [hn]
          · exact Or.inl ⟨_, rfl, rfl⟩
          · exact Or.inr ⟨k1, k2, n, rfl, rfl⟩
  · rw [getConfig_of_loadConfig_error env _ ch cfg err hc,
      getConfig_of_loadConfig_error env _ ch cfg err hc]
    exact ⟨rfl, Or.inl ⟨_, rfl, rfl⟩⟩

/-- The request of `Present` without its `AccessKey` entry does not depend on
the API key. -/
theorem presentRequest_withoutAccessKey (env : Env) (k1 k2 : String) (z : Int)
    (ch : ChallengeRequest) :
    (presentRequest env ⟨k1, z⟩ ch).withoutAccessKey =
      (presentRequest env ⟨k2, z⟩ ch).withoutAccessKey := by
  obtain ⟨h1, h2, h3⟩ := canonical_header_keys
  simp [presentRequest, HttpRequest.withoutAccessKey, HttpRequest.headerAdd, NewRequest,
    h1, h2, h3, List.filter]

/-- The request of `CleanUp` without its `AccessKey` entry does not depend on
the API key. -/
theorem cleanUpRequest_withoutAccessKey (env : Env) (k1 k2 : String) (z : Int) :
    (cleanUpRequest env ⟨k1, z⟩).withoutAccessKey =
      (cleanUpRequest env ⟨k2, z⟩).withoutAccessKey := by
  obtain ⟨h1, -, h3⟩ := canonical_header_keys
  simp [cleanUpRequest, HttpRequest.withoutAccessKey, HttpRequest.headerAdd, NewRequest,
    h1, h3, List.filter]

/-- Two runs of `Present` against secret stores that differ at most in the
value of `api-key`, each with a transport of its own. -/
theorem Present_sameUpToApiKey (env : Env)
    (D1 D2 : HttpRequest → Option HttpResponse × Option GoError)
    (cl1 cl2 : Clientset) (ch : ChallengeRequest)
    (hsec : ∀ ns name, SameUpToApiKey (cl1.secretsGet ns name) (cl2.secretsGet ns name)) :
    (Present { env with httpDo := D1 } ⟨some cl1⟩ ch).requests.map HttpRequest.withoutAccessKey =
      (Present { env with httpDo := D2 } ⟨some cl2⟩ ch).requests.map
        HttpRequest.withoutAccessKey ∧
    (∀ e, (Present { env with httpDo := D1 } ⟨some cl1⟩ ch).result = .error e ↔
      (Present { env with httpDo := D2 } ⟨some cl2⟩ ch).result = .error e) ∧
    ((Present { env with httpDo := D1 } ⟨some cl1⟩ ch).result ≠ .crash →
      (Present { env with httpDo := D2 } ⟨some cl2⟩ ch).result ≠ .crash →
      (Present { env with httpDo := D1 } ⟨some cl1⟩ ch).result =
        (Present { env with httpDo := D2 } ⟨some cl2⟩ ch).result) := by
  obtain ⟨-, ⟨e, h1, h2⟩ | ⟨k1, k2, z, h1, h2⟩⟩ := getConfig_sameUpToApiKey env cl1 cl2 ch hsec
  · have p1 : (Present { env with httpDo := D1 } ⟨some cl1⟩ ch).result = .error e := by
      rw [Present_eq, getConfig_httpDo, h1]
    have p2 : (Present { env with httpDo := D2 } ⟨some cl2⟩ ch).result = .error e := by
      rw [Present_eq, getConfig_httpDo, h2]
    have q1 : (Present { env with httpDo := D1 } ⟨some cl1⟩ ch).requests = [] := by
      have hg := getConfig_requests env ⟨some cl1⟩ ch
      rw [Present_eq, getConfig_httpDo, h1]
      exact hg
    have q2 : (Present { env with httpDo := D2 } ⟨some cl2⟩ ch).requests = [] := by
      have hg := getConfig_requests env ⟨some cl2⟩ ch
      rw [Present_eq, getConfig_httpDo, h2]
      exact hg
    rw [p1, p2, q1, q2]
    simp
  · have q1 := Present_requests_of_ok { env with httpDo := D1 } ⟨some cl1⟩ ch ⟨k1, z⟩ h1
    have q2 := Present_requests_of_ok { env with httpDo := D2 } ⟨some cl2⟩ ch ⟨k2, z⟩ h2
    have p1 : (Present { env with httpDo := D1 } ⟨some cl1⟩ ch).result = .crash ∨
        (Present { env with httpDo := D1 } ⟨some cl1⟩ ch).result = .ok () := by
      rw [Present_eq, getConfig_httpDo, h1]
      simp only
      rcases (D1 _).1 with _ | r <;> simp
    have p2 : (Present { env with httpDo := D2 } ⟨some cl2⟩ ch).result = .crash ∨
        (Present { env with httpDo := D2 } ⟨some cl2⟩ ch).result = .ok () := by
      rw [Present_eq, getConfig_httpDo, h2]
      simp only
      rcases (D2 _).1 with _ | r <;> simp
    refine ⟨?_, ?_, ?_⟩
    · rw [q1, q2]
      simpa using presentRequest_withoutAccessKey env k1 k2 z ch
    · intro e
      rcases p1 with p1 | p1 <;> rcases p2 with p2 | p2 <;> simp [p1, p2]
    · rcases p1 with p1 | p1 <;> rcases p2 with p2 | p2 <;> simp [p1, p2]

/-- Two runs of `CleanUp` against secret stores that differ at most in the
value of `api-key`, each with a transport of its own. -/
theorem CleanUp_sameUpToApiKey (env : Env)
    (D1 D2 : HttpRequest → Option HttpResponse × Option GoError)
    (cl1 cl2 : Clientset) (ch : ChallengeRequest)
    (hsec : ∀ ns name, SameUpToApiKey (cl1.secretsGet ns name) (cl2.secretsGet ns name)) :
    (CleanUp { env with httpDo := D1 } ⟨some cl1⟩ ch).requests.map HttpRequest.withoutAccessKey =
      (CleanUp { env with httpDo := D2 } ⟨some cl2⟩ ch).requests.map
        HttpRequest.withoutAccessKey ∧
    (∀ e, (CleanUp { env with httpDo := D1 } ⟨some cl1⟩ ch).result = .error e ↔
      (CleanUp { env with httpDo := D2 } ⟨some cl2⟩ ch).result = .error e) ∧
    ((CleanUp { env with httpDo := D1 } ⟨some cl1⟩ ch).result ≠ .crash →
      (CleanUp { env with httpDo := D2 } ⟨some cl2⟩ ch).result ≠ .crash →
      (CleanUp { env with httpDo := D1 } ⟨some cl1⟩ ch).result =
        (CleanUp { env with httpDo := D2 } ⟨some cl2⟩ ch).result) := by
  obtain ⟨-, ⟨e, h1, h2⟩ | ⟨k1, k2, z, h1, h2⟩⟩ := getConfig_sameUpToApiKey env cl1 cl2 ch hsec
  · have p1 : (CleanUp { env with httpDo := D1 } ⟨some cl1⟩ ch).result = .error e := by
      rw [CleanUp_eq, getConfig_httpDo, h1]
    have p2 : (CleanUp { env with httpDo := D2 } ⟨some cl2⟩ ch).result = .error e := by
      rw [CleanUp_eq, getConfig_httpDo, h2]
    have q1 : (CleanUp { env with httpDo := D1 } ⟨some cl1⟩ ch).requests = [] := by
      have hg := getConfig_requests env ⟨some cl1⟩ ch
      rw [CleanUp_eq, getConfig_httpDo, h1]
      exact hg
    have q2 : (CleanUp { env with httpDo := D2 } ⟨some cl2⟩ ch).requests = [] := by
      have hg := getConfig_requests env ⟨some cl2⟩ ch
      rw [CleanUp_eq, getConfig_httpDo, h2]
      exact hg
    rw [p1, p2, q1, q2]
    simp
  · have q1 := CleanUp_requests_of_ok { env with httpDo := D1 } ⟨some cl1⟩ ch ⟨k1, z⟩ h1
    have q2 := CleanUp_requests_of_ok { env with httpDo := D2 } ⟨some cl2⟩ ch ⟨k2, z⟩ h2
    have p1 : (CleanUp { env with httpDo := D1 } ⟨some cl1⟩ ch).result = .crash ∨
        (CleanUp { env with httpDo := D1 } ⟨some cl1⟩ ch).result = .ok () := by
      rw [CleanUp_eq, getConfig_httpDo, h1]
      simp only
      rcases (D1 _).1 with _ | r <;> simp
    have p2 : (CleanUp { env with httpDo := D2 } ⟨some cl2⟩ ch).result = .crash ∨
        (CleanUp { env with httpDo := D2 } ⟨some cl2⟩ ch).result = .ok () := by
      rw [CleanUp_eq, getConfig_httpDo, h2]
      simp only
      rcases (D2 _).1 with _ | r <;> simp
    refine ⟨?_, ?_, ?_⟩
    · rw [q1, q2]
      simpa using cleanUpRequest_withoutAccessKey env k1 k2 z
    · intro e
      rcases p1 with p1 | p1 <;> rcases p2 with p2 | p2 <;> simp [p1, p2]
    · rcases p1 with p1 | p1 <;> rcases p2 with p2 | p2 <;> simp [p1, p2]

/-- Dropping the `AccessKey` entries leaves method, URL and body as they
are. -/
theorem map_line_of_withoutAccessKey (l1 l2 : List HttpRequest)
    (h : l1.map HttpRequest.withoutAccessKey = l2.map HttpRequest.withoutAccessKey) :
    l1.map (fun q => (q.Method, q.URL, q.Body)) = l2.map (fun q => (q.Method, q.URL, q.Body)) := by
  have h2 := congrArg (List.map fun q : HttpRequest => (q.Method, q.URL, q.Body)) h
  simpa [List.map_map, Function.comp_def, HttpRequest.withoutAccessKey] using h2

/-- Two example stores whose secrets differ only in the API key differ at most
in the value stored under `api-key`. -/
theorem exampleClient_sameUpToApiKey (k1 k2 zone : String) (ns name : String) :
    SameUpToApiKey ((exampleClient (fullData k1 zone)).secretsGet ns name)
      ((exampleClient (fullData k2 zone)).secretsGet ns name) := by
  by_cases hn : name = ""
  · simp [exampleClient, hn, SameUpToApiKey]
  · simp only [exampleClient, hn, if_false, SameUpToApiKey]
    refine ⟨fun k hk => ?_, rfl⟩
    simp [fullData, hk]

/-- C10 as written fails: the secrets with API key `K` and with API key `K`
followed by a line feed differ only in the value of `api-key`, yet with a
transport that refuses a header value holding a control character, `Present`
returns nil for the first and panics for the second, and so does `CleanUp`: the
way the call ends is not the same in the two runs. -/
theorem apiKey_decides_outcome :
    (∀ ns name, SameUpToApiKey ((exampleClient (fullData "K" "42")).secretsGet ns name)
      ((exampleClient (fullData "K\n" "42")).secretsGet ns name)) ∧
    (Present strictEnv ⟨some (exampleClient (fullData "K" "42"))⟩ overrideChallenge).result =
      .ok () ∧
    (Present strictEnv ⟨some (exampleClient (fullData "K\n" "42"))⟩ overrideChallenge).result =
      .crash ∧
    (CleanUp strictEnv ⟨some (exampleClient (fullData "K" "42"))⟩ overrideChallenge).result =
      .ok () ∧
    (CleanUp strictEnv ⟨some (exampleClient (fullData "K\n" "42"))⟩ overrideChallenge).result =
      .crash ∧
    (Present strictEnv ⟨some (exampleClient (fullData "K" "42"))⟩ overrideChallenge).result ≠
      (Present strictEnv ⟨some (exampleClient (fullData "K\n" "42"))⟩
        overrideChallenge).result ∧
    (CleanUp strictEnv ⟨some (exampleClient (fullData "K" "42"))⟩ overrideChallenge).result ≠
      (CleanUp strictEnv ⟨some (exampleClient (fullData "K\n" "42"))⟩
        overrideChallenge).result :=
  ⟨exampleClient_sameUpToApiKey "K" "K\n" "42", by decide, by decide, by decide, by decide,
    by decide, by decide⟩

/-- C10, as the code has it: take two runs of `Present`, or two of `CleanUp`, on
the same request in the same process, against secret stores that differ at most
in the value stored under `api-key`, each run with a transport of its own.  The
two runs issue requests with the same method, URL and body, and the same header
entries apart from `AccessKey`; one returns an error exactly when the other
returns that error; when both return, they return the same value; and the two
runs end differently exactly when one of them panics and the other does not.
`getConfig` returns the same error in both, or credentials with the same zone
identifier.  In each request the header is the part that does not depend on the
key followed by the one entry `AccessKey`, whose value is the API key. -/
theorem apiKey_confined (env : Env)
    (D1 D2 : HttpRequest → Option HttpResponse × Option GoError)
    (cl1 cl2 : Clientset) (ch : ChallengeRequest)
    (hsec : ∀ ns name, SameUpToApiKey (cl1.secretsGet ns name) (cl2.secretsGet ns name)) :
    (getConfig env ⟨some cl1⟩ ch).result.map bunnyDNSApiConfig.zoneId =
      (getConfig env ⟨some cl2⟩ ch).result.map bunnyDNSApiConfig.zoneId ∧
    (∀ op ∈ [Present, CleanUp],
      (op { env with httpDo := D1 } ⟨some cl1⟩ ch).requests.map
          (fun q => (q.Method, q.URL, q.Body)) =
        (op { env with httpDo := D2 } ⟨some cl2⟩ ch).requests.map
          (fun q => (q.Method, q.URL, q.Body)) ∧
      (op { env with httpDo := D1 } ⟨some cl1⟩ ch).requests.map HttpRequest.withoutAccessKey =
        (op { env with httpDo := D2 } ⟨some cl2⟩ ch).requests.map
          HttpRequest.withoutAccessKey ∧
      (∀ e, (op { env with httpDo := D1 } ⟨some cl1⟩ ch).result = .error e ↔
        (op { env with httpDo := D2 } ⟨some cl2⟩ ch).result = .error e) ∧
      ((op { env with httpDo := D1 } ⟨some cl1⟩ ch).result ≠ .crash →
        (op { env with httpDo := D2 } ⟨some cl2⟩ ch).result ≠ .crash →
        (op { env with httpDo := D1 } ⟨some cl1⟩ ch).result =
          (op { env with httpDo := D2 } ⟨some cl2⟩ ch).result) ∧
      ((op { env with httpDo := D1 } ⟨some cl1⟩ ch).result =
          (op { env with httpDo := D2 } ⟨some cl2⟩ ch).result ↔
        ((op { env with httpDo := D1 } ⟨some cl1⟩ ch).result = .crash ↔
          (op { env with httpDo := D2 } ⟨some cl2⟩ ch).result = .crash))) ∧
    (∀ cfg, (getConfig env ⟨some cl1⟩ ch).result = .ok cfg →
      ∀ op ∈ [Present, CleanUp], ∀ q ∈ (op { env with httpDo := D1 } ⟨some cl1⟩ ch).requests,
        q.Header = q.withoutAccessKey.Header ++ [("Accesskey", cfg.apiKey)] ∧
        q.headerGet "AccessKey" = cfg.apiKey) := by
  have key : ∀ r1 r2 : Result Unit, (r1 ≠ .crash → r2 ≠ .crash → r1 = r2) →
      (r1 = r2 ↔ (r1 = .crash ↔ r2 = .crash)) := by
    intro r1 r2 c
    constructor
    · intro h
      rw [h]
    · intro h
      by_cases h1 : r1 = .crash
      · rw [h1, h.1 h1]
      · exact c h1 fun h2 => h1 (h.2 h2)
  refine ⟨?_, fun op hop => ?_, fun cfg hcfg op hop q hq => ?_⟩
  · obtain ⟨-, ⟨e, h1, h2⟩ | ⟨k1, k2, z, h1, h2⟩⟩ := getConfig_sameUpToApiKey env cl1 cl2 ch hsec
    · rw [h1, h2]
    · rw [h1, h2]; rfl
  · simp only [List.mem_cons, List.mem_singleton, List.not_mem_nil, or_false] at hop
    rcases hop with rfl | rfl
    · obtain ⟨a, b, c⟩ := Present_sameUpToApiKey env D1 D2 cl1 cl2 ch hsec
      exact ⟨map_line_of_withoutAccessKey _ _ a, a, b, c, key _ _ c⟩
    · obtain ⟨a, b, c⟩ := CleanUp_sameUpToApiKey env D1 D2 cl1 cl2 ch hsec
      exact ⟨map_line_of_withoutAccessKey _ _ a, a, b, c, key _ _ c⟩
  · obtain ⟨k1, k2, k3⟩ := canonical_header_keys
    simp only [List.mem_cons, List.mem_singleton, List.not_mem_nil, or_false] at hop
    rcases hop with rfl | rfl
    · rw [Present_requests_of_ok { env with httpDo := D1 } ⟨some cl1⟩ ch cfg hcfg] at hq
      simp only [List.mem_singleton] at hq
      subst hq
      simp [presentRequest, HttpRequest.withoutAccessKey, HttpRequest.headerAdd,
        HttpRequest.headerGet, NewRequest, k1, k2, k3, List.filter, List.lookup]
    · rw [CleanUp_requests_of_ok { env with httpDo := D1 } ⟨some cl1⟩ ch cfg hcfg] at hq
      simp only [List.mem_singleton] at hq
      subst hq
      simp [cleanUpRequest, HttpRequest.withoutAccessKey, HttpRequest.headerAdd,
        HttpRequest.headerGet, NewRequest, k1, k3, List.filter, List.lookup]

/-- C10 as amended, at the keys `K1` and `K2` for zone `42` and a request whose
configuration names the secret, where the provider answers the first run with
200 and the second with 401: `Present` sends the same method, URL and body and
returns the same value in both runs. -/
theorem apiKey_confined_witness :
    (Present (exampleEnv 200) ⟨some (exampleClient (fullData "K1" "42"))⟩
        overrideChallenge).requests.map (fun q => (q.Method, q.URL, q.Body)) =
      (Present (exampleEnv 401) ⟨some (exampleClient (fullData "K2" "42"))⟩
        overrideChallenge).requests.map (fun q => (q.Method, q.URL, q.Body)) ∧
    (Present (exampleEnv 200) ⟨some (exampleClient (fullData "K1" "42"))⟩
        overrideChallenge).requests.map (fun q => (q.Method, q.URL, q.Body)) =
      [("PUT", "https://api.bunny.net/dnszone/42/records",
        some ("\x7b\"Id\":4711,\"Type\":3,\"Value\":\"tok\"," ++
          "\"Name\":\"_acme-challenge.example.com.\"\x7d"))] ∧
    (Present (exampleEnv 200) ⟨some (exampleClient (fullData "K1" "42"))⟩
        overrideChallenge).result =
      (Present (exampleEnv 401) ⟨some (exampleClient (fullData "K2" "42"))⟩
        overrideChallenge).result := by
  have h := (apiKey_confined (exampleEnv 200) (exampleEnv 200).httpDo (exampleEnv 401).httpDo
    (exampleClient (fullData "K1" "42")) (exampleClient (fullData "K2" "42")) overrideChallenge
    (exampleClient_sameUpToApiKey "K1" "K2" "42")).2.1 Present (by simp)
  exact ⟨h.1, by decide, h.2.2.2.1 (by decide) (by decide)⟩

end BunnyWebhook
